import Mathlib

/-!
Shallow embedding of the qlib data-loading layer
(qlib/data/dataset/loader.py) and the online user manager
(qlib/contrib/online/manager.py), with theorems settling the frozen
claims about them.
-/

/-- A row key of a two-level pandas MultiIndex; both levels are rendered as
strings (timestamps compare lexicographically in ISO form, so string order
agrees with time order). -/
abbrev Key := String × String

/-- Lexicographic order on two-level index keys: strictly by the first level
first, ties broken by the second level. -/
def keyLE (a b : Key) : Prop :=
  a.1 < b.1 ∨ (a.1 = b.1 ∧ a.2 ≤ b.2)

instance : DecidableRel keyLE := fun a b => by
  unfold keyLE; infer_instance

instance : IsTotal Key keyLE :=
  ⟨fun a b => by
    rcases lt_trichotomy a.1 b.1 with h | h | h
    · exact Or.inl (Or.inl h)
    · rcases le_total a.2 b.2 with h2 | h2
      · exact Or.inl (Or.inr ⟨h, h2⟩)
      · exact Or.inr (Or.inr ⟨h.symm, h2⟩)
    · exact Or.inr (Or.inl h)⟩

instance : IsTrans Key keyLE :=
  ⟨fun a b c hab hbc => by
    rcases hab with h1 | ⟨e1, l1⟩ <;> rcases hbc with h2 | ⟨e2, l2⟩
    · exact Or.inl (lt_trans h1 h2)
    · exact Or.inl (lt_of_lt_of_le h1 (le_of_eq e2))
    · exact Or.inl (lt_of_le_of_lt (le_of_eq e1) h2)
    · exact Or.inr ⟨e1.trans e2, le_trans l1 l2⟩⟩

/-- A pandas DataFrame with a two-level row index: ordered rows of
(key, cell values) plus ordered column labels. -/
structure Table where
  rows : List (Key × List Int)
  columns : List String
deriving Repr, DecidableEq

/-- The row index of a table, in row order. -/
def Table.index (t : Table) : List Key := t.rows.map Prod.fst

/-- Order on whole rows induced by the key order, used by sort_index. -/
def rowLE (a b : Key × List Int) : Prop := keyLE a.1 b.1

instance : DecidableRel rowLE := fun a b => by
  unfold rowLE; infer_instance

instance : IsTotal (Key × List Int) rowLE :=
  ⟨fun a b => IsTotal.total (r := keyLE) a.1 b.1⟩

instance : IsTrans (Key × List Int) rowLE :=
  ⟨fun _ _ _ hab hbc => IsTrans.trans (r := keyLE) _ _ _ hab hbc⟩

/-- df.swaplevel(): invert the two levels of every row key. -/
def Table.swaplevel (t : Table) : Table :=
  { t with rows := t.rows.map (fun r => ((r.1.2, r.1.1), r.2)) }

/-- df.sort_index(): stable sort of the rows by their key, lexicographically
by the first then the second index level. -/
def Table.sort_index (t : Table) : Table :=
  { t with rows := t.rows.insertionSort rowLE }

/-- Error taxonomy of the loading layer; each constructor stands for one
concrete raise site in the code (ValueError / AssertionError / KeyError). -/
inductive LoaderError where
  /-- ValueError in _parse_fields_info: empty flat form. -/
  | emptyFieldSpec
  /-- ValueError in QlibDataLoader.__init__: the per-group frequency mapping
  is missing a group key of the config. -/
  | missingGroupFrequency (group : String)
  /-- AssertionError in QlibDataLoader.__init__: grouped config with a
  frequency mapping requires a non-empty inst_processor dict. -/
  | emptyInstProcessor
  /-- pandas ValueError when assigning df.columns with a label list whose
  length differs from the column count. -/
  | exprNameMismatch
  /-- KeyError when indexing the frequency dict with an uncovered group. -/
  | freqKeyError (group : String)
  /-- AttributeError when the handlers shape disagrees with is_group. -/
  | handlerShapeError
deriving Repr, DecidableEq

/-- A flat fields form as accepted by _parse_fields_info: either a sequence
headed by a string (used as both expressions and names) or a pair of a
sequence of expressions and a sequence of names. -/
inductive FieldsInfo where
  | strs (l : List String)
  | pair (exprs names : List String)
deriving Repr, DecidableEq

/-- _parse_fields_info: an empty flat form is rejected; a form headed by a
string is used as both expressions and names; a pair form is read as
(expressions, names). -/
def parse_fields_info : FieldsInfo → Except LoaderError (List String × List String)
  | .strs [] => .error .emptyFieldSpec
  | .strs l => .ok (l, l)
  | .pair exprs names => .ok (exprs, names)

/-- A field configuration: flat, or grouped as a mapping from group name to
a flat form (dict input means grouped). -/
inductive FieldsConfig where
  | flat (info : FieldsInfo)
  | grouped (groups : List (String × FieldsInfo))
deriving Repr, DecidableEq

/-- The parsed fields stored on the loader by DLWParser.__init__. -/
inductive Fields where
  | flat (exprs names : List String)
  | grouped (m : List (String × List String × List String))
deriving Repr, DecidableEq

/-- DLWParser.__init__: is_group is whether the config is a dict; the fields
are the parse of each flat form. -/
def DLWParser_parse : FieldsConfig → Except LoaderError (Bool × Fields)
  | .flat info => do
      let en ← parse_fields_info info
      return (false, .flat en.1 en.2)
  | .grouped groups => do
      let m ← groups.mapM (fun g => do
        let en ← parse_fields_info g.2
        return (g.1, en.1, en.2))
      return (true, .grouped m)

/-- The group keys of a config dict (empty for a flat config). -/
def groupKeys : FieldsConfig → List String
  | .flat _ => []
  | .grouped groups => groups.map Prod.fst

/-- A constructed instrument filter (built externally by
init_instance_by_config from a descriptor; modelled as an opaque token). -/
abbrev DFilter := String

/-- A frequency specification: a single token, or a mapping from group name
to token. -/
inductive FreqSpec where
  | single (token : String)
  | perGroup (m : List (String × String))
deriving Repr, DecidableEq

/-- The state of a constructed QlibDataLoader. -/
structure QlibDataLoader where
  filter_pipe : Option (List DFilter)
  swap_level : Bool
  freq : FreqSpec
  inst_processor : List (String × List String)
  is_group : Bool
  fields : Fields
deriving Repr, DecidableEq

/-- QlibDataLoader.__init__: store filter_pipe / swap_level / freq, default
inst_processor to the empty dict, parse the config via DLWParser, then for a
grouped config with a dict frequency check that every group key is covered
(ValueError on the first missing one) and assert that inst_processor is
non-empty. -/
def QlibDataLoader.make (config : FieldsConfig) (filter_pipe : Option (List DFilter))
    (swap_level : Bool) (freq : FreqSpec)
    (inst_processor : Option (List (String × List String))) :
    Except LoaderError QlibDataLoader :=
  let instProc := inst_processor.getD []
  match DLWParser_parse config with
  | .error e => .error e
  | .ok pf =>
    let ldr : QlibDataLoader :=
      { filter_pipe := filter_pipe, swap_level := swap_level, freq := freq,
        inst_processor := instProc, is_group := pf.1, fields := pf.2 }
    if pf.1 then
      match freq with
      | .perGroup fm =>
        match (groupKeys config).find? (fun g => !((fm.map Prod.fst).contains g)) with
        | some g => .error (.missingGroupFrequency g)
        | none =>
          if instProc.isEmpty then
            .error .emptyInstProcessor
          else
            .ok ldr
      | .single _ => .ok ldr
    else
      .ok ldr

/-- A diagnostic emitted on the warning channel (warnings.warn or the module
logger), distinct from raised errors. -/
inductive Diagnostic where
  /-- warnings.warn: instruments is not set, will load all stocks. -/
  | instrumentsNotSet
  /-- warnings.warn: filter_pipe is not None but will not be used because
  instruments was given as a list. -/
  | filterPipeIgnored
  /-- logger warning in DataLoaderDH.load: the instruments argument is
  ignored. -/
  | instrumentsIgnored
deriving Repr, DecidableEq

/-- The instruments argument of load: a universe (market) name, or an
explicit list of instrument identifiers. -/
inductive InstSpec where
  | universe (name : String)
  | explicit (insts : List String)
deriving Repr, DecidableEq

/-- The instruments value actually handed to the feature engine: the result
of D.instruments on a universe name together with the filter pipe, or an
explicit list passed through untouched (no filter applied). -/
inductive ResolvedInsts where
  | fromUniverse (name : String) (filters : Option (List DFilter))
  | fromList (insts : List String)
deriving Repr, DecidableEq

/-- The external feature-evaluation engine D.features: for given arguments
it yields the rows of a frame indexed (instrument, datetime). The frame
returned by the engine carries exactly one column per requested expression,
so the embedding fixes the column labels of the raw result to the
expression list. -/
structure FeatureEngine where
  rows : ResolvedInsts → List String → Option String → Option String →
         String → List String → List (Key × List Int)

/-- D.features as seen by load_group_df: engine rows, columns labelled by
the requested expressions. -/
def D_features (engine : FeatureEngine) (insts : ResolvedInsts) (exprs : List String)
    (start_time end_time : Option String) (freq : String)
    (inst_processors : List String) : Table :=
  { rows := engine.rows insts exprs start_time end_time freq inst_processors,
    columns := exprs }

/-- Assignment df.columns = names: pandas raises a length-mismatch
ValueError unless the new label list has exactly as many entries as the
frame has columns. -/
def Table.setColumns (t : Table) (names : List String) : Except LoaderError Table :=
  if names.length = t.columns.length then .ok { t with columns := names }
  else .error .exprNameMismatch

/-- Indexing self.freq with the group name: a single token is returned as
is; a dict is indexed with the group name (KeyError if absent, also when
the group name is None). -/
def lookupFreq (freq : FreqSpec) (gp_name : Option String) : Except LoaderError String :=
  match freq with
  | .single tok => .ok tok
  | .perGroup m =>
    match gp_name with
    | none => .error (.freqKeyError "None")
    | some g =>
      match m.lookup g with
      | some tok => .ok tok
      | none => .error (.freqKeyError g)

/-- self.inst_processor.get(gp_name, []): the per-group processors, empty
when the group is absent (or the group name is None). -/
def lookupInstProc (m : List (String × List String)) (gp_name : Option String) :
    List String :=
  match gp_name with
  | none => []
  | some g => (m.lookup g).getD []

/-- The instrument-resolution prefix of load_group_df: a missing argument is
replaced by the universe name all with a diagnostic; a universe name goes
through D.instruments with the filter pipe; an explicit list is used
directly, with a diagnostic exactly when filter_pipe is not None. -/
def QlibDataLoader.resolveInstruments (ldr : QlibDataLoader)
    (instruments : Option InstSpec) : List Diagnostic × ResolvedInsts :=
  let step1 : List Diagnostic × InstSpec :=
    match instruments with
    | none => ([Diagnostic.instrumentsNotSet], InstSpec.universe "all")
    | some i => ([], i)
  match step1.2 with
  | .universe name => (step1.1, ResolvedInsts.fromUniverse name ldr.filter_pipe)
  | .explicit l =>
    (step1.1 ++ (if ldr.filter_pipe.isSome then [Diagnostic.filterPipeIgnored] else []),
     ResolvedInsts.fromList l)

/-- QlibDataLoader.load_group_df: resolve the instruments, pick the
effective frequency, query the engine, rename the columns positionally to
names, and if swap_level is set swap the index levels and sort the index.
Returns the diagnostics emitted alongside the result or error. -/
def QlibDataLoader.load_group_df (ldr : QlibDataLoader) (engine : FeatureEngine)
    (instruments : Option InstSpec) (exprs names : List String)
    (start_time end_time : Option String) (gp_name : Option String) :
    List Diagnostic × Except LoaderError Table :=
  let ri := ldr.resolveInstruments instruments
  match lookupFreq ldr.freq gp_name with
  | .error e => (ri.1, .error e)
  | .ok freq =>
    let df := D_features engine ri.2 exprs start_time end_time freq
      (lookupInstProc ldr.inst_processor gp_name)
    match df.setColumns names with
    | .error e => (ri.1, .error e)
    | .ok df2 =>
      (ri.1, .ok (if ldr.swap_level then df2.swaplevel.sort_index else df2))

/-!
StaticDataLoader. The collaborator calls (the dataset reader, pandas
concat with a join mode, sort_index, and loc slicing) are kept abstract as
an operations record; the loader itself is a state machine and every call
reports the list of sources it actually read.
-/

/-- The external pandas and dataset-reader operations StaticDataLoader
delegates to: load_dataset, pd.concat on columns with a join mode,
sort_index, restriction of the second index level to an instrument list,
and inclusive time slicing of the first level (time_to_slc_point keeps a
missing bound open, so slicing takes the bounds as options). -/
structure StaticOps (Table SourceRef : Type) where
  load_dataset : SourceRef → Table
  concat : String → List (String × Table) → Table
  sort_index : Table → Table
  loc_inst : Table → List String → Table
  loc_time : Table → Option String → Option String → Table

/-- The state of a StaticDataLoader: the group-to-source config, the join
mode, and the lazily materialized merged table (None until first use). -/
structure StaticDataLoader (Table SourceRef : Type) where
  config : List (String × SourceRef)
  join : String
  _data : Option Table

/-- StaticDataLoader.__init__: store config and join, cache empty. -/
def StaticDataLoader.make {T S : Type} (config : List (String × S)) (join : String) :
    StaticDataLoader T S :=
  { config := config, join := join, _data := none }

/-- StaticDataLoader._maybe_load_raw_data: if the cache is already
populated, do nothing and read no source; otherwise read every group
source, concatenate the frames on columns under the configured join mode,
sort the combined index, and cache the result. Returns the new state, the
cached table, and the sources read by this call. -/
def StaticDataLoader.maybe_load_raw_data {T S : Type} (ops : StaticOps T S)
    (ldr : StaticDataLoader T S) : (StaticDataLoader T S × T) × List S :=
  match ldr._data with
  | some d => ((ldr, d), [])
  | none =>
    let merged := ops.sort_index
      (ops.concat ldr.join (ldr.config.map (fun gs => (gs.1, ops.load_dataset gs.2))))
    (({ ldr with _data := some merged }, merged), ldr.config.map Prod.snd)

/-- StaticDataLoader.load: ensure the cache is populated, restrict to the
requested instruments when given, and if either time bound is set slice the
time level inclusively; when both bounds are unset the (possibly
restricted) view is returned as is, without a copy. Returns the new state,
the sources read by this call, and the result table. -/
def StaticDataLoader.load {T S : Type} (ops : StaticOps T S)
    (ldr : StaticDataLoader T S) (instruments : Option (List String))
    (start_time end_time : Option String) :
    StaticDataLoader T S × List S × T :=
  let step := ldr.maybe_load_raw_data ops
  let df := match instruments with
    | none => step.1.2
    | some insts => ops.loc_inst step.1.2 insts
  if start_time.isNone && end_time.isNone then (step.1.1, step.2, df)
  else (step.1.1, step.2, ops.loc_time df start_time end_time)

/-- The arguments of one load call. -/
structure LoadArgs where
  instruments : Option (List String)
  start_time : Option String
  end_time : Option String

/-- A sequence of load calls threaded through the loader state, collecting
every source read along the way. -/
def StaticDataLoader.loadSeq {T S : Type} (ops : StaticOps T S)
    (ldr : StaticDataLoader T S) : List LoadArgs → StaticDataLoader T S × List S
  | [] => (ldr, [])
  | a :: as =>
    let step := ldr.load ops a.instruments a.start_time a.end_time
    let rest := step.1.loadSeq ops as
    (rest.1, step.2.1 ++ rest.2)

/-- The merged table a cold StaticDataLoader materializes on first use:
each group source read once, concatenated under the join mode, index
sorted. -/
def staticMaterialized {T S : Type} (ops : StaticOps T S)
    (config : List (String × S)) (join : String) : T :=
  ops.sort_index (ops.concat join (config.map (fun gs => (gs.1, ops.load_dataset gs.2))))

/-!
DataLoaderDH: the loader over pre-built data handlers.
-/

/-- An external data handler, reduced to its fetch contract: a time-range
selector (the two slice bounds), the index level name, and the keyword
arguments, yielding a table. -/
structure DataHandler where
  fetch : Option String × Option String → String → List (String × String) → Table

/-- The handler configuration: a single handler, or a mapping from group
name to handler. -/
inductive HandlerConfig where
  | single (h : DataHandler)
  | grouped (hs : List (String × DataHandler))

/-- The default col_set entry DataLoaderDH.__init__ puts in fetch_kwargs
(DataHandler.CS_RAW from the external handler module). -/
def DataHandler_CS_RAW : String := "__raw"

/-- Python dict union base | extra: every key of base, with the value from
extra when present, followed by the new keys of extra. -/
def mergeKwargs (base extra : List (String × String)) :
    List (String × String) :=
  base.map (fun kv => (kv.1, ((extra.lookup kv.1).getD kv.2))) ++
    extra.filter (fun kv => !((base.map Prod.fst).contains kv.1))

/-- The state of a constructed DataLoaderDH. -/
structure DataLoaderDH where
  handlers : HandlerConfig
  is_group : Bool
  fetch_kwargs : List (String × String)

/-- DataLoaderDH.__init__: store the handlers (built externally by
init_instance_by_config) and is_group, and merge the user fetch_kwargs over
the default col_set entry. -/
def DataLoaderDH.make (handler_config : HandlerConfig)
    (fetch_kwargs : List (String × String)) (is_group : Bool) : DataLoaderDH :=
  { handlers := handler_config, is_group := is_group,
    fetch_kwargs := mergeKwargs [("col_set", DataHandler_CS_RAW)] fetch_kwargs }

/-- DataLoaderDH.load: a non-null instruments argument only triggers a
logger diagnostic; each handler is fetched with selector slice(start_time,
end_time) on the datetime level and the configured kwargs; grouped results
are concatenated on columns under their group labels (the external
pd.concat is a parameter), a single handler result is returned unchanged. -/
def DataLoaderDH.load (ldr : DataLoaderDH)
    (concat : List (String × Table) → Table) (instruments : Option InstSpec)
    (start_time end_time : Option String) :
    List Diagnostic × Except LoaderError Table :=
  let warns := if instruments.isSome then [Diagnostic.instrumentsIgnored] else []
  match ldr.is_group, ldr.handlers with
  | true, .grouped hs =>
    (warns, .ok (concat (hs.map (fun gh =>
      (gh.1, gh.2.fetch (start_time, end_time) "datetime" ldr.fetch_kwargs)))))
  | false, .single h =>
    (warns, .ok (h.fetch (start_time, end_time) "datetime" ldr.fetch_kwargs))
  | _, _ => (warns, .error .handlerShapeError)

/-!
UserManager (qlib/contrib/online/manager.py): directory-backed lifecycle
store for online trading users. The data directory is modelled by the set
of existing config files, the set of user directories, the artifact files
written under them (with their serialized content), and the parsed rows of
the users.csv manifest. Model and strategy construction from a config file
(yaml load plus init_instance_by_config plus strategy.init) is external and
modelled by an environment of oracles.
-/

/-- The on-disk state of the user data directory. -/
structure UserFS where
  configFiles : List String
  userDirs : List String
  savedFiles : List (String × String)
  manifest : List (String × String)
deriving Repr, DecidableEq

/-- External construction of the objects persisted by add_user: the
serialized model built from a config file, the serialized strategy built
from the config and the add date, and the serialized fresh account built
from the init_cash of the config. -/
structure OnlineEnv where
  modelOf : String → String
  strategyOf : String → String → String
  accountOf : String → String

/-- Errors raised by the user manager, named after the spec taxonomy; each
stands for one raise site (ValueError or pandas KeyError). -/
inductive UserError where
  /-- ValueError: cannot find config file. -/
  | configNotFound (path : String)
  /-- ValueError: user data already exists. -/
  | userAlreadyExists (uid : String)
  /-- ValueError: cannot find user data. -/
  | unknownUser (uid : String)
  /-- ValueError in load_user: the user has already been loaded. -/
  | userAlreadyLoaded (uid : String)
  /-- pandas KeyError from user_record.drop on a label absent from the
  manifest. -/
  | manifestKeyError (uid : String)
deriving Repr, DecidableEq

/-- Assignment user_record.loc[user_id] = [add_date]: overwrite the row
when the label already exists, otherwise append a new row (upsert). -/
def manifestUpsert (m : List (String × String)) (uid date : String) :
    List (String × String) :=
  if (m.map Prod.fst).contains uid then
    m.map (fun r => if r.1 = uid then (uid, date) else r)
  else m ++ [(uid, date)]

/-- UserManager.add_user on the file system: fail when the config file is
missing, fail when the user directory already exists, otherwise create the
directory, persist the model, strategy and account pickles built from the
config, and upsert the manifest row. Python raises leave the state as
mutated so far, hence the state-plus-optional-error result. -/
def addUserFS (env : OnlineEnv) (fs : UserFS) (user_id config_file add_date : String) :
    UserFS × Option UserError :=
  if !(fs.configFiles.contains config_file) then
    (fs, some (.configNotFound config_file))
  else if fs.userDirs.contains user_id then
    (fs, some (.userAlreadyExists user_id))
  else
    ({ fs with
        userDirs := fs.userDirs ++ [user_id],
        savedFiles := fs.savedFiles ++
          [(user_id ++ "/model_" ++ user_id ++ ".pickle", env.modelOf config_file),
           (user_id ++ "/strategy_" ++ user_id ++ ".pickle",
            env.strategyOf config_file add_date),
           (user_id ++ "/account", env.accountOf config_file)],
        manifest := manifestUpsert fs.manifest user_id add_date },
     none)

/-- UserManager.remove_user on the file system: fail when the user
directory is missing; otherwise delete the directory tree (the directory
entry and every artifact under it), then drop the manifest row — pandas
drop raises KeyError when the label is absent, after the directory was
already deleted. -/
def removeUserFS (fs : UserFS) (user_id : String) : UserFS × Option UserError :=
  if !(fs.userDirs.contains user_id) then
    (fs, some (.unknownUser user_id))
  else
    let fs1 := { fs with
      userDirs := fs.userDirs.filter (fun d => d ≠ user_id),
      savedFiles := fs.savedFiles.filter
        (fun pv => !(pv.1.startsWith (user_id ++ "/"))) }
    if !((fs1.manifest.map Prod.fst).contains user_id) then
      (fs1, some (.manifestKeyError user_id))
    else
      ({ fs1 with manifest := fs1.manifest.filter (fun r => r.1 ≠ user_id) }, none)

/-- UserManager.save_user_data on the file system: requires the user to be
resident in the in-memory mapping (checked by the caller level below);
persists the account and the strategy and model pickles of the resident
user (contents external, modelled as opaque re-serializations). -/
def saveUserFS (fs : UserFS) (user_id : String) : UserFS :=
  { fs with savedFiles := fs.savedFiles ++
      [(user_id ++ "/account", "resaved"),
       (user_id ++ "/strategy_" ++ user_id ++ ".pickle", "resaved"),
       (user_id ++ "/model_" ++ user_id ++ ".pickle", "resaved")] }

/-- The in-memory state of a UserManager: the on-disk view plus the
self.users mapping of resident User instances (opaque tokens). -/
structure UserManager where
  fs : UserFS
  users : List (String × String)
deriving Repr, DecidableEq

/-- UserManager.add_user: pure disk operation — it never touches the
in-memory users mapping. -/
def UserManager.add_user (m : UserManager) (env : OnlineEnv)
    (user_id config_file add_date : String) : UserManager × Option UserError :=
  let r := addUserFS env m.fs user_id config_file add_date
  ({ m with fs := r.1 }, r.2)

/-- UserManager.remove_user: pure disk operation — it never touches the
in-memory users mapping. -/
def UserManager.remove_user (m : UserManager) (user_id : String) :
    UserManager × Option UserError :=
  let r := removeUserFS m.fs user_id
  ({ m with fs := r.1 }, r.2)

/-- UserManager.save_user_data: fails when the user is not resident in the
in-memory mapping, otherwise rewrites that user's artifacts on disk. -/
def UserManager.save_user_data (m : UserManager) (user_id : String) :
    UserManager × Option UserError :=
  if !((m.users.map Prod.fst).contains user_id) then
    (m, some (.unknownUser user_id))
  else
    ({ m with fs := saveUserFS m.fs user_id }, none)

/-- The disk states reachable by the manager from a freshly initialized
data directory (empty manifest, no user directories) through its own
mutating operations. -/
inductive ReachableFS (env : OnlineEnv) : UserFS → Prop where
  | init (cfgs : List String) :
      ReachableFS env
        { configFiles := cfgs, userDirs := [], savedFiles := [], manifest := [] }
  | addUser (fs : UserFS) (uid cfg date : String) (h : ReachableFS env fs) :
      ReachableFS env (addUserFS env fs uid cfg date).1
  | removeUser (fs : UserFS) (uid : String) (h : ReachableFS env fs) :
      ReachableFS env (removeUserFS fs uid).1
  | saveUser (fs : UserFS) (uid : String) (h : ReachableFS env fs) :
      ReachableFS env (saveUserFS fs uid)

/-- Consistency invariant of the user data directory: in every state the
manager can reach by its own operations, a user directory exists exactly
when the manifest has a row for that user. -/
theorem reachableFS_consistent (env : OnlineEnv) (fs : UserFS)
    (h : ReachableFS env fs) :
    ∀ uid, uid ∈ fs.userDirs ↔ uid ∈ fs.manifest.map Prod.fst := by
  induction h with
  | init cfgs => intro uid; simp
  | addUser fs0 uid0 cfg date h ih =>
    intro uid
    by_cases hc : fs0.configFiles.contains cfg = true
    · by_cases hd : fs0.userDirs.contains uid0 = true
      · simp only [addUserFS, hc, hd, Bool.not_true, Bool.false_eq_true,
          if_false, if_true]
        exact ih uid
      · have hd0 : uid0 ∉ fs0.manifest.map Prod.fst := by
          rw [← ih uid0]
          intro hmem
          exact hd (List.elem_iff.mpr hmem)
        have hup : manifestUpsert fs0.manifest uid0 date =
            fs0.manifest ++ [(uid0, date)] := by
          rw [manifestUpsert, if_neg]
          intro hcon
          exact hd0 (List.elem_iff.mp hcon)
        simp only [addUserFS, hc, hd, Bool.not_true, Bool.false_eq_true,
          if_false, if_true, Bool.not_false, hup]
        simp only [List.map_append, List.mem_append, List.map_cons,
          List.map_nil, List.mem_singleton, List.mem_cons,
          List.not_mem_nil, or_false]
        rw [ih uid]
    · simp only [addUserFS, hc, Bool.not_false, Bool.false_eq_true, if_true]
      exact ih uid
  | removeUser fs0 uid0 h ih =>
    intro uid
    by_cases hd : fs0.userDirs.contains uid0 = true
    · have hman : (fs0.manifest.map Prod.fst).contains uid0 = true :=
        List.elem_iff.mpr ((ih uid0).mp (List.elem_iff.mp hd))
      simp only [removeUserFS, hd, Bool.not_true, Bool.false_eq_true,
        if_false, hman]
      constructor
      · intro hmem
        have h1 := List.mem_filter.mp hmem
        have hne : uid ≠ uid0 := by simpa using h1.2
        obtain ⟨r, hr, hre⟩ := List.mem_map.mp ((ih uid).mp h1.1)
        refine List.mem_map.mpr ⟨r, List.mem_filter.mpr ⟨hr, ?_⟩, hre⟩
        simp [hre, hne]
      · intro hmem
        obtain ⟨r, hr, hre⟩ := List.mem_map.mp hmem
        have h2 := List.mem_filter.mp hr
        have hne : uid ≠ uid0 := by
          have h3 := h2.2
          simp only [decide_eq_true_eq] at h3
          rw [← hre]; exact h3
        refine List.mem_filter.mpr ⟨(ih uid).mpr (List.mem_map.mpr ⟨r, h2.1, hre⟩), ?_⟩
        simp [hne]
    · simp only [removeUserFS, hd, Bool.not_false, if_true]
      exact ih uid
  | saveUser fs0 uid0 h ih =>
    intro uid
    simpa [saveUserFS] using ih uid

/-!
Claim theorems.
-/

/-- C2: for every grouped config (whose flat forms parse) and every
frequency given as a mapping, if some group key is absent from the mapping
then QlibDataLoader construction fails with MissingGroupFrequency (on the
first missing group), so no loader instance exists and no load call is
possible. -/
theorem qlib_make_missing_group_freq (groups : List (String × FieldsInfo))
    (filter_pipe : Option (List DFilter)) (swap_level : Bool)
    (fm : List (String × String))
    (inst_processor : Option (List (String × List String))) (flds : Fields)
    (hparse : DLWParser_parse (.grouped groups) = .ok (true, flds))
    (g : String) (hg : g ∈ groups.map Prod.fst) (hmiss : g ∉ fm.map Prod.fst) :
    ∃ g0, QlibDataLoader.make (.grouped groups) filter_pipe swap_level
        (.perGroup fm) inst_processor = .error (.missingGroupFrequency g0) := by
  have hc : (fm.map Prod.fst).contains g = false := by
    rw [← Bool.not_eq_true]
    intro hcon
    exact hmiss (List.elem_iff.mp hcon)
  have hfind : ((groupKeys (.grouped groups)).find?
      (fun g => !((fm.map Prod.fst).contains g))).isSome = true := by
    rw [List.find?_isSome]
    refine ⟨g, hg, ?_⟩
    simp only [hc, Bool.not_false]
  obtain ⟨g0, hg0⟩ := Option.isSome_iff_exists.mp hfind
  refine ⟨g0, ?_⟩
  unfold QlibDataLoader.make
  simp only [hparse]
  rw [hg0]
  simp

/-- C2 witness: a one-group config with an empty frequency mapping fails at
construction with MissingGroupFrequency. -/
theorem qlib_make_missing_group_freq_witness :
    DLWParser_parse (.grouped [("A", .strs ["x"])]) =
      .ok (true, Fields.grouped [("A", (["x"], ["x"]))]) ∧
    "A" ∈ [("A", FieldsInfo.strs ["x"])].map Prod.fst ∧
    "A" ∉ ([] : List (String × String)).map Prod.fst ∧
    ∃ g0, QlibDataLoader.make (.grouped [("A", .strs ["x"])]) none true
        (.perGroup []) none = .error (.missingGroupFrequency g0) :=
  ⟨rfl, by decide, by decide,
   qlib_make_missing_group_freq [("A", .strs ["x"])] none true [] none
     (Fields.grouped [("A", (["x"], ["x"]))]) rfl "A" (by decide) (by decide)⟩

/-- C9: for every grouped config (whose flat forms parse) with a frequency
mapping that covers every group key, construction still fails (with the
inst_processor assertion) when the per-instrument processor mapping is
None or empty — an extra construction precondition. -/
theorem qlib_make_empty_inst_processor (groups : List (String × FieldsInfo))
    (filter_pipe : Option (List DFilter)) (swap_level : Bool)
    (fm : List (String × String))
    (inst_processor : Option (List (String × List String))) (flds : Fields)
    (hparse : DLWParser_parse (.grouped groups) = .ok (true, flds))
    (hcover : ∀ g ∈ groups.map Prod.fst, g ∈ fm.map Prod.fst)
    (hip : inst_processor.getD [] = []) :
    QlibDataLoader.make (.grouped groups) filter_pipe swap_level
      (.perGroup fm) inst_processor = .error .emptyInstProcessor := by
  have hfind : ((groupKeys (.grouped groups)).find?
      (fun g => !((fm.map Prod.fst).contains g))) = none := by
    rw [List.find?_eq_none]
    intro x hx
    have hc : (fm.map Prod.fst).contains x = true :=
      List.elem_iff.mpr (hcover x hx)
    simp only [hc]
    decide
  unfold QlibDataLoader.make
  simp only [hparse, hip]
  rw [hfind]
  simp

/-- C9 witness: a one-group config with full frequency coverage and no
inst_processor fails at construction with the inst_processor assertion. -/
theorem qlib_make_empty_inst_processor_witness :
    DLWParser_parse (.grouped [("A", .strs ["x"])]) =
      .ok (true, Fields.grouped [("A", (["x"], ["x"]))]) ∧
    (∀ g ∈ [("A", FieldsInfo.strs ["x"])].map Prod.fst,
      g ∈ [("A", "day")].map Prod.fst) ∧
    (none : Option (List (String × List String))).getD [] = [] ∧
    QlibDataLoader.make (.grouped [("A", .strs ["x"])]) none true
      (.perGroup [("A", "day")]) none = .error .emptyInstProcessor :=
  ⟨rfl, by decide, rfl,
   qlib_make_empty_inst_processor [("A", .strs ["x"])] none true [("A", "day")]
     none (Fields.grouped [("A", (["x"], ["x"]))]) rfl (by decide) rfl⟩

/-- Swapping the index levels and sorting: the resulting index is a
permutation of the level-swapped keys and is sorted lexicographically. -/
theorem swap_sort_index_perm_sorted (rows : List (Key × List Int)) (cols : List String) :
    (({ rows := rows, columns := cols } : Table).swaplevel.sort_index).index.Perm
        (rows.map (fun r => (r.1.2, r.1.1))) ∧
    List.Sorted keyLE
      (({ rows := rows, columns := cols } : Table).swaplevel.sort_index).index := by
  constructor
  · have hperm := (List.perm_insertionSort rowLE
      (rows.map (fun r => ((r.1.2, r.1.1), r.2)))).map Prod.fst
    simp only [Table.swaplevel, Table.sort_index, Table.index]
    refine hperm.trans ?_
    rw [List.map_map]
    exact List.Perm.refl _
  · have hsort := List.sorted_insertionSort rowLE
      (rows.map (fun r => ((r.1.2, r.1.1), r.2)))
    simp only [Table.swaplevel, Table.sort_index, Table.index]
    exact List.Pairwise.map Prod.fst (fun a b h => h) hsort

/-- C3: for every call to load_group_df with a resolvable frequency, a
names list whose length differs from the expressions list makes the call
fail with ExprNameMismatch, and with equal lengths the returned table's
column labels equal names, in order, regardless of expression content
(duplicates included). -/
theorem load_group_df_column_names (ldr : QlibDataLoader) (engine : FeatureEngine)
    (instruments : Option InstSpec) (exprs names : List String)
    (start_time end_time gp_name : Option String)
    (f : String) (hfreq : lookupFreq ldr.freq gp_name = .ok f) :
    (names.length ≠ exprs.length →
      (ldr.load_group_df engine instruments exprs names start_time end_time gp_name).2
        = .error .exprNameMismatch) ∧
    (names.length = exprs.length →
      ∃ t, (ldr.load_group_df engine instruments exprs names start_time end_time gp_name).2
          = .ok t ∧ t.columns = names) := by
  unfold QlibDataLoader.load_group_df
  simp only [hfreq, Table.setColumns, D_features]
  constructor
  · intro hne
    rw [if_neg hne]
  · intro hlen
    rw [if_pos hlen]
    refine ⟨_, rfl, ?_⟩
    cases hs : ldr.swap_level <;>
      simp [hs, Table.swaplevel, Table.sort_index]

/-- C3 witness: with one name for two expressions the call fails with
ExprNameMismatch; with matching names the columns equal names even for
duplicate expressions. -/
theorem load_group_df_column_names_witness :
    lookupFreq (FreqSpec.single "day") none = .ok "day" ∧
    ((["n1"].length ≠ ["e", "e"].length →
      (QlibDataLoader.load_group_df
          ⟨none, true, .single "day", [], false, .flat ["e", "e"] ["n1"]⟩
          ⟨fun _ _ _ _ _ _ => []⟩ none ["e", "e"] ["n1"] none none none).2
        = .error .exprNameMismatch) ∧
    (["n1"].length = ["e", "e"].length →
      ∃ t, (QlibDataLoader.load_group_df
          ⟨none, true, .single "day", [], false, .flat ["e", "e"] ["n1"]⟩
          ⟨fun _ _ _ _ _ _ => []⟩ none ["e", "e"] ["n1"] none none none).2
          = .ok t ∧ t.columns = ["n1"])) :=
  ⟨rfl, load_group_df_column_names
    ⟨none, true, .single "day", [], false, .flat ["e", "e"] ["n1"]⟩
    ⟨fun _ _ _ _ _ _ => []⟩ none ["e", "e"] ["n1"] none none none "day" rfl⟩

/-- C4: with the swap flag set (and matching name count and resolvable
frequency), the returned table's index is the engine's (instrument, time)
index with the two levels inverted to (time, instrument) and sorted
lexicographically first by time then by instrument. -/
theorem load_group_df_swap_level (ldr : QlibDataLoader) (engine : FeatureEngine)
    (instruments : Option InstSpec) (exprs names : List String)
    (start_time end_time gp_name : Option String)
    (hswap : ldr.swap_level = true)
    (f : String) (hfreq : lookupFreq ldr.freq gp_name = .ok f)
    (hlen : names.length = exprs.length) :
    ∃ t, (ldr.load_group_df engine instruments exprs names start_time end_time gp_name).2
        = .ok t ∧
      t.index.Perm ((engine.rows (ldr.resolveInstruments instruments).2 exprs
          start_time end_time f (lookupInstProc ldr.inst_processor gp_name)).map
        (fun r => (r.1.2, r.1.1))) ∧
      List.Sorted keyLE t.index := by
  unfold QlibDataLoader.load_group_df
  simp only [hfreq, Table.setColumns, D_features, hswap, if_true]
  rw [if_pos hlen]
  exact ⟨_, rfl,
    (swap_sort_index_perm_sorted _ names).1,
    (swap_sort_index_perm_sorted _ names).2⟩

/-- C4 witness: a two-row engine result in instrument-major order comes
back time-major and sorted. -/
theorem load_group_df_swap_level_witness :
    (⟨none, true, FreqSpec.single "day", [], false,
        Fields.flat ["e"] ["n"]⟩ : QlibDataLoader).swap_level = true ∧
    lookupFreq (FreqSpec.single "day") none = .ok "day" ∧
    ["n"].length = ["e"].length ∧
    ∃ t, (QlibDataLoader.load_group_df
        ⟨none, true, .single "day", [], false, .flat ["e"] ["n"]⟩
        ⟨fun _ _ _ _ _ _ =>
          [(("B", "2020-01-02"), [1]), (("A", "2020-01-01"), [2])]⟩
        none ["e"] ["n"] none none none).2 = .ok t ∧
      t.index.Perm ([(("B", "2020-01-02"), [(1 : Int)]),
          (("A", "2020-01-01"), [2])].map (fun r => (r.1.2, r.1.1))) ∧
      List.Sorted keyLE t.index :=
  ⟨rfl, rfl, rfl, load_group_df_swap_level
    ⟨none, true, .single "day", [], false, .flat ["e"] ["n"]⟩
    ⟨fun _ _ _ _ _ _ =>
      [(("B", "2020-01-02"), [1]), (("A", "2020-01-01"), [2])]⟩
    none ["e"] ["n"] none none none rfl "day" rfl rfl⟩

/-- A loader constructed with an explicitly configured but empty filter
pipeline (filter_pipe given as the empty list, which is not None). -/
def emptyPipeLdr : QlibDataLoader :=
  { filter_pipe := some [], swap_level := true, freq := .single "day",
    inst_processor := [], is_group := false, fields := .flat ["e"] ["e"] }

/-- C7 counterexample: with a configured but empty filter pipeline (the
constructor accepts the empty list and stores it, which is not None), a
load_group_df call with explicit instruments emits the
filter-pipeline-ignored diagnostic even though the configured pipeline is
empty — refuting that the diagnostic is emitted exactly when a non-empty
pipeline was configured. -/
theorem load_group_df_filter_diag_counterexample :
    QlibDataLoader.make (.flat (.strs ["e"])) (some []) true (.single "day") none
      = .ok emptyPipeLdr ∧
    emptyPipeLdr.filter_pipe = some [] ∧
    Diagnostic.filterPipeIgnored ∈
      (emptyPipeLdr.load_group_df ⟨fun _ _ _ _ _ _ => []⟩
        (some (.explicit ["SH600000"])) ["e"] ["e"] none none none).1 := by
  refine ⟨rfl, rfl, ?_⟩
  decide

/-- C7 amended: for explicit (list) instruments, the instruments are used
directly with no filter application, a filter-pipeline-ignored diagnostic
is emitted exactly when a filter pipeline was configured (filter_pipe is
not None, whether or not it is empty), and execution continues without
error. -/
theorem load_group_df_explicit_instruments (ldr : QlibDataLoader)
    (engine : FeatureEngine) (insts : List String) (exprs names : List String)
    (start_time end_time gp_name : Option String)
    (f : String) (hfreq : lookupFreq ldr.freq gp_name = .ok f)
    (hlen : names.length = exprs.length) :
    (ldr.resolveInstruments (some (.explicit insts))).2
      = ResolvedInsts.fromList insts ∧
    (Diagnostic.filterPipeIgnored ∈
        (ldr.load_group_df engine (some (.explicit insts)) exprs names
          start_time end_time gp_name).1
      ↔ ldr.filter_pipe.isSome = true) ∧
    (∃ t, (ldr.load_group_df engine (some (.explicit insts)) exprs names
        start_time end_time gp_name).2 = .ok t) := by
  refine ⟨rfl, ?_, ?_⟩
  · unfold QlibDataLoader.load_group_df QlibDataLoader.resolveInstruments
    simp only [hfreq, Table.setColumns, D_features]
    rw [if_pos hlen]
    cases hp : ldr.filter_pipe <;> simp [hp]
  · unfold QlibDataLoader.load_group_df
    simp only [hfreq, Table.setColumns, D_features]
    rw [if_pos hlen]
    exact ⟨_, rfl⟩

/-- C7 amended witness: with a non-empty configured pipeline and explicit
instruments the diagnostic is emitted and the call succeeds. -/
theorem load_group_df_explicit_instruments_witness :
    lookupFreq (FreqSpec.single "day") none = .ok "day" ∧
    ["n"].length = ["e"].length ∧
    ((⟨some ["f1"], true, FreqSpec.single "day", [], false,
        Fields.flat ["e"] ["n"]⟩ : QlibDataLoader).resolveInstruments
        (some (.explicit ["SH600000"]))).2 = ResolvedInsts.fromList ["SH600000"] ∧
    (Diagnostic.filterPipeIgnored ∈
        ((⟨some ["f1"], true, FreqSpec.single "day", [], false,
            Fields.flat ["e"] ["n"]⟩ : QlibDataLoader).load_group_df
          ⟨fun _ _ _ _ _ _ => []⟩ (some (.explicit ["SH600000"])) ["e"] ["n"]
          none none none).1
      ↔ (⟨some ["f1"], true, FreqSpec.single "day", [], false,
          Fields.flat ["e"] ["n"]⟩ : QlibDataLoader).filter_pipe.isSome = true) ∧
    (∃ t, ((⟨some ["f1"], true, FreqSpec.single "day", [], false,
        Fields.flat ["e"] ["n"]⟩ : QlibDataLoader).load_group_df
          ⟨fun _ _ _ _ _ _ => []⟩ (some (.explicit ["SH600000"])) ["e"] ["n"]
          none none none).2 = .ok t) := by
  refine ⟨rfl, rfl, ?_, ?_, ?_⟩
  · exact (load_group_df_explicit_instruments ⟨some ["f1"], true, .single "day", [],
      false, .flat ["e"] ["n"]⟩ ⟨fun _ _ _ _ _ _ => []⟩
      ["SH600000"] ["e"] ["n"] none none none "day" rfl rfl).1
  · exact (load_group_df_explicit_instruments ⟨some ["f1"], true, .single "day", [],
      false, .flat ["e"] ["n"]⟩ ⟨fun _ _ _ _ _ _ => []⟩
      ["SH600000"] ["e"] ["n"] none none none "day" rfl rfl).2.1
  · exact (load_group_df_explicit_instruments ⟨some ["f1"], true, .single "day", [],
      false, .flat ["e"] ["n"]⟩ ⟨fun _ _ _ _ _ _ => []⟩
      ["SH600000"] ["e"] ["n"] none none none "day" rfl rfl).2.2

/-- A load on a loader whose cache is already populated leaves the state
unchanged and reads no source. -/
theorem staticLoad_warm {T S : Type} (ops : StaticOps T S)
    (ldr : StaticDataLoader T S) (d : T) (h : ldr._data = some d)
    (instruments : Option (List String)) (st et : Option String) :
    (ldr.load ops instruments st et).1 = ldr ∧
    (ldr.load ops instruments st et).2.1 = [] := by
  unfold StaticDataLoader.load StaticDataLoader.maybe_load_raw_data
  rw [h]
  cases hc : (st.isNone && et.isNone) <;> cases instruments <;> simp [hc]

/-- A sequence of loads on a loader whose cache is already populated leaves
the state unchanged and reads no source at all. -/
theorem staticLoadSeq_warm {T S : Type} (ops : StaticOps T S)
    (ldr : StaticDataLoader T S) (d : T) (h : ldr._data = some d)
    (calls : List LoadArgs) : ldr.loadSeq ops calls = (ldr, []) := by
  induction calls with
  | nil => rfl
  | cons a as ih =>
    have hw := staticLoad_warm ops ldr d h a.instruments a.start_time a.end_time
    simp only [StaticDataLoader.loadSeq]
    rw [hw.1, hw.2, ih]
    rfl

/-- The first load on a freshly constructed loader reads each group source
exactly once (in config order) and caches the sorted concatenation. -/
theorem staticLoad_cold {T S : Type} (ops : StaticOps T S)
    (config : List (String × S)) (join : String)
    (instruments : Option (List String)) (st et : Option String) :
    ((StaticDataLoader.make (T := T) config join).load ops instruments st et).1
      = { config := config, join := join,
          _data := some (staticMaterialized ops config join) } ∧
    ((StaticDataLoader.make (T := T) config join).load ops instruments st et).2.1
      = config.map Prod.snd := by
  unfold StaticDataLoader.load StaticDataLoader.maybe_load_raw_data
    StaticDataLoader.make staticMaterialized
  cases hc : (st.isNone && et.isNone) <;> cases instruments <;> simp [hc]

/-- C1: across any non-empty sequence of load calls on a freshly
constructed StaticDataLoader, the sources read in total are exactly each
group's source once (the first call materializes the sorted concatenation
under the configured join mode and caches it), and any load on a loader
whose cache is populated reads nothing and leaves the cached table
untouched. -/
theorem staticDataLoader_loads_each_source_once {T S : Type} (ops : StaticOps T S)
    (config : List (String × S)) (join : String) (calls : List LoadArgs)
    (hne : calls ≠ [])
    (ldrW : StaticDataLoader T S) (d : T) (hW : ldrW._data = some d)
    (args : LoadArgs) :
    ((StaticDataLoader.make (T := T) config join).loadSeq ops calls).2
      = config.map Prod.snd ∧
    ((StaticDataLoader.make (T := T) config join).loadSeq ops calls).1._data
      = some (staticMaterialized ops config join) ∧
    (ldrW.load ops args.instruments args.start_time args.end_time).2.1 = [] ∧
    (ldrW.load ops args.instruments args.start_time args.end_time).1._data
      = some d := by
  obtain ⟨a, as, rfl⟩ : ∃ a as, calls = a :: as := by
    cases calls with
    | nil => exact absurd rfl hne
    | cons a as => exact ⟨a, as, rfl⟩
  have hcold := staticLoad_cold ops config join a.instruments a.start_time a.end_time
  have hwarm := staticLoadSeq_warm ops
    ({ config := config, join := join,
       _data := some (staticMaterialized ops config join) } : StaticDataLoader T S)
    (staticMaterialized ops config join) rfl as
  have hw := staticLoad_warm ops ldrW d hW args.instruments args.start_time
    args.end_time
  refine ⟨?_, ?_, hw.2, ?_⟩
  · simp only [StaticDataLoader.loadSeq]
    rw [hcold.1, hcold.2, hwarm]
    simp
  · simp only [StaticDataLoader.loadSeq]
    rw [hcold.1, hwarm]
  · rw [hw.1]
    exact hW

/-- C1 witness: one group, one call; the call reads the single source and
caches its table, and a pre-warmed loader reads nothing. -/
theorem staticDataLoader_loads_each_source_once_witness :
    ([⟨none, none, none⟩] : List LoadArgs) ≠ [] ∧
    (⟨[], "outer", some 7⟩ : StaticDataLoader Nat String)._data = some 7 ∧
    (((StaticDataLoader.make (T := Nat) [("g", "src")] "outer").loadSeq
        ⟨fun _ => 1, fun _ l => l.length, fun t => t, fun t _ => t, fun t _ _ => t⟩
        [⟨none, none, none⟩]).2 = [("g", "src")].map Prod.snd ∧
      ((StaticDataLoader.make (T := Nat) [("g", "src")] "outer").loadSeq
        ⟨fun _ => 1, fun _ l => l.length, fun t => t, fun t _ => t, fun t _ _ => t⟩
        [⟨none, none, none⟩]).1._data
        = some (staticMaterialized
            ⟨fun _ => 1, fun _ l => l.length, fun t => t, fun t _ => t, fun t _ _ => t⟩
            [("g", "src")] "outer") ∧
      ((⟨[], "outer", some 7⟩ : StaticDataLoader Nat String).load
        ⟨fun _ => 1, fun _ l => l.length, fun t => t, fun t _ => t, fun t _ _ => t⟩
        none none none).2.1 = [] ∧
      ((⟨[], "outer", some 7⟩ : StaticDataLoader Nat String).load
        ⟨fun _ => 1, fun _ l => l.length, fun t => t, fun t _ => t, fun t _ _ => t⟩
        none none none).1._data = some 7) :=
  ⟨List.cons_ne_nil _ _, rfl,
   staticDataLoader_loads_each_source_once
     ⟨fun _ => 1, fun _ l => l.length, fun t => t, fun t _ => t, fun t _ _ => t⟩
     [("g", "src")] "outer" [⟨none, none, none⟩] (List.cons_ne_nil _ _)
     ⟨[], "outer", some 7⟩ 7 rfl ⟨none, none, none⟩⟩

/-- C5: a load with instruments, start and end all unset returns exactly
the cached merged table (the value the cache holds after the call), with
no restriction, slicing or copy applied. -/
theorem staticDataLoader_load_all_none {T S : Type} (ops : StaticOps T S)
    (ldr : StaticDataLoader T S) :
    ∃ d, (ldr.load ops none none none).1._data = some d ∧
      (ldr.load ops none none none).2.2 = d := by
  cases h : ldr._data with
  | some d =>
    refine ⟨d, ?_, ?_⟩ <;>
      simp [StaticDataLoader.load, StaticDataLoader.maybe_load_raw_data, h]
  | none =>
    refine ⟨ops.sort_index (ops.concat ldr.join
        (ldr.config.map (fun gs => (gs.1, ops.load_dataset gs.2)))), ?_, ?_⟩ <;>
      simp [StaticDataLoader.load, StaticDataLoader.maybe_load_raw_data, h]

/-- C6: a handler loader built with is_group false never honors the
instruments argument — its result is the single handler's fetch with
selector slice(start_time, end_time) on the datetime level and the
configured kwargs, unchanged and independent of the instruments value, and
a non-null instruments value only adds the ignored-instruments
diagnostic. -/
theorem dataLoaderDH_flat_ignores_instruments (h : DataHandler)
    (fetch_kwargs : List (String × String))
    (concat : List (String × Table) → Table) (instruments : Option InstSpec)
    (start_time end_time : Option String) :
    ((DataLoaderDH.make (.single h) fetch_kwargs false).load concat instruments
        start_time end_time).2
      = .ok (h.fetch (start_time, end_time) "datetime"
          (DataLoaderDH.make (.single h) fetch_kwargs false).fetch_kwargs) ∧
    (((DataLoaderDH.make (.single h) fetch_kwargs false).load concat instruments
        start_time end_time).1
      = if instruments.isSome then [Diagnostic.instrumentsIgnored] else []) ∧
    (∀ i2 : Option InstSpec,
      ((DataLoaderDH.make (.single h) fetch_kwargs false).load concat i2
          start_time end_time).2
        = ((DataLoaderDH.make (.single h) fetch_kwargs false).load concat
            instruments start_time end_time).2) := by
  refine ⟨rfl, rfl, fun i2 => rfl⟩

/-- C8: on every reachable manager state, add_user fails with
ConfigNotFound when the config path is missing; otherwise fails with
UserAlreadyExists when the user directory already exists; otherwise
succeeds, creating the user directory, persisting the model, strategy and
account built from the config under it, and appending the (user_id,
add_date) row to the manifest. -/
theorem userManager_add_user_spec (env : OnlineEnv) (m : UserManager)
    (hreach : ReachableFS env m.fs) (uid cfg date : String) :
    (cfg ∉ m.fs.configFiles →
      m.add_user env uid cfg date = (m, some (.configNotFound cfg))) ∧
    (cfg ∈ m.fs.configFiles → uid ∈ m.fs.userDirs →
      m.add_user env uid cfg date = (m, some (.userAlreadyExists uid))) ∧
    (cfg ∈ m.fs.configFiles → uid ∉ m.fs.userDirs →
      (m.add_user env uid cfg date).2 = none ∧
      (m.add_user env uid cfg date).1.fs.userDirs = m.fs.userDirs ++ [uid] ∧
      (m.add_user env uid cfg date).1.fs.savedFiles = m.fs.savedFiles ++
        [(uid ++ "/model_" ++ uid ++ ".pickle", env.modelOf cfg),
         (uid ++ "/strategy_" ++ uid ++ ".pickle", env.strategyOf cfg date),
         (uid ++ "/account", env.accountOf cfg)] ∧
      (m.add_user env uid cfg date).1.fs.manifest
        = m.fs.manifest ++ [(uid, date)]) := by
  refine ⟨?_, ?_, ?_⟩
  · intro hc
    unfold UserManager.add_user addUserFS
    simp [hc]
  · intro hcmem hd
    unfold UserManager.add_user addUserFS
    simp [hcmem, hd]
  · intro hcmem hd
    have hni : (m.fs.manifest.map Prod.fst).contains uid = false := by
      rw [← Bool.not_eq_true]
      intro hcon
      exact hd ((reachableFS_consistent env m.fs hreach uid).mpr
        (List.elem_iff.mp hcon))
    have hnim : uid ∉ m.fs.manifest.map Prod.fst := fun hmem =>
      hd ((reachableFS_consistent env m.fs hreach uid).mpr hmem)
    unfold UserManager.add_user addUserFS manifestUpsert
    simp [hcmem, hd, hni, hnim]

/-- The external construction environment used by the concrete manager
witnesses. -/
def c8Env : OnlineEnv := ⟨fun _ => "M", fun _ _ => "S", fun _ => "A"⟩

/-- A freshly initialized manager over a data directory holding one config
file, no users, and an empty manifest. -/
def c8Mgr : UserManager := ⟨⟨["cfg1"], [], [], []⟩, []⟩

/-- C8 witness: on the fresh manager, adding user u1 from cfg1 takes all
three branches as claimed. -/
theorem userManager_add_user_spec_witness :
    ReachableFS c8Env c8Mgr.fs ∧
    (("cfg1" : String) ∉ c8Mgr.fs.configFiles →
      c8Mgr.add_user c8Env "u1" "cfg1" "2020-01-04"
        = (c8Mgr, some (.configNotFound "cfg1"))) ∧
    (("cfg1" : String) ∈ c8Mgr.fs.configFiles →
      ("u1" : String) ∈ c8Mgr.fs.userDirs →
      c8Mgr.add_user c8Env "u1" "cfg1" "2020-01-04"
        = (c8Mgr, some (.userAlreadyExists "u1"))) ∧
    (("cfg1" : String) ∈ c8Mgr.fs.configFiles →
      ("u1" : String) ∉ c8Mgr.fs.userDirs →
      (c8Mgr.add_user c8Env "u1" "cfg1" "2020-01-04").2 = none ∧
      (c8Mgr.add_user c8Env "u1" "cfg1" "2020-01-04").1.fs.userDirs
        = c8Mgr.fs.userDirs ++ ["u1"] ∧
      (c8Mgr.add_user c8Env "u1" "cfg1" "2020-01-04").1.fs.savedFiles
        = c8Mgr.fs.savedFiles ++
          [("u1" ++ "/model_" ++ "u1" ++ ".pickle", c8Env.modelOf "cfg1"),
           ("u1" ++ "/strategy_" ++ "u1" ++ ".pickle",
            c8Env.strategyOf "cfg1" "2020-01-04"),
           ("u1" ++ "/account", c8Env.accountOf "cfg1")] ∧
      (c8Mgr.add_user c8Env "u1" "cfg1" "2020-01-04").1.fs.manifest
        = c8Mgr.fs.manifest ++ [("u1", "2020-01-04")]) :=
  ⟨ReachableFS.init ["cfg1"],
   userManager_add_user_spec c8Env c8Mgr (ReachableFS.init ["cfg1"])
     "u1" "cfg1" "2020-01-04"⟩

/-- C10: on every reachable manager state in which user uid is resident in
the in-memory users mapping and its directory exists, remove_user deletes
the user directory and the manifest row but leaves the in-memory users
mapping unchanged — the user is still resident afterwards. -/
theorem userManager_remove_user_frame (env : OnlineEnv) (m : UserManager)
    (hreach : ReachableFS env m.fs) (uid : String)
    (hres : uid ∈ m.users.map Prod.fst) (hdir : uid ∈ m.fs.userDirs) :
    (m.remove_user uid).2 = none ∧
    uid ∉ (m.remove_user uid).1.fs.userDirs ∧
    uid ∉ (m.remove_user uid).1.fs.manifest.map Prod.fst ∧
    (m.remove_user uid).1.users = m.users ∧
    uid ∈ (m.remove_user uid).1.users.map Prod.fst := by
  have hmP : uid ∈ m.fs.manifest.map Prod.fst :=
    (reachableFS_consistent env m.fs hreach uid).mp hdir
  have hm2 : (m.fs.manifest.map Prod.fst).contains uid = true :=
    List.elem_iff.mpr hmP
  unfold UserManager.remove_user removeUserFS
  refine ⟨?_, ?_, ?_, ?_, ?_⟩ <;> simp [hdir, hmP, hm2, hres]

/-- The reachable state after adding u1 to the fresh manager, then loading
u1 into memory. -/
def c10Mgr : UserManager :=
  ⟨(addUserFS c8Env ⟨["cfg1"], [], [], []⟩ "u1" "cfg1" "2020-01-04").1,
   [("u1", "userObj")]⟩

/-- C10 witness: removing u1 from the reachable state deletes its directory
and manifest row while u1 stays resident in memory. -/
theorem userManager_remove_user_frame_witness :
    ReachableFS c8Env c10Mgr.fs ∧
    ("u1" : String) ∈ c10Mgr.users.map Prod.fst ∧
    ("u1" : String) ∈ c10Mgr.fs.userDirs ∧
    ((c10Mgr.remove_user "u1").2 = none ∧
     ("u1" : String) ∉ (c10Mgr.remove_user "u1").1.fs.userDirs ∧
     ("u1" : String) ∉ (c10Mgr.remove_user "u1").1.fs.manifest.map Prod.fst ∧
     (c10Mgr.remove_user "u1").1.users = c10Mgr.users ∧
     ("u1" : String) ∈ (c10Mgr.remove_user "u1").1.users.map Prod.fst) :=
  ⟨ReachableFS.addUser ⟨["cfg1"], [], [], []⟩ "u1" "cfg1" "2020-01-04"
     (ReachableFS.init ["cfg1"]),
   by decide, by decide,
   userManager_remove_user_frame c8Env c10Mgr
     (ReachableFS.addUser ⟨["cfg1"], [], [], []⟩ "u1" "cfg1" "2020-01-04"
       (ReachableFS.init ["cfg1"]))
     "u1" (by decide) (by decide)⟩
